import Mathlib

/-!
Verification development for the Salesforce field-metadata tool.

The repository's algorithmic core is embedded shallowly:
  * `normalizeCharacters`  — the Unicode character normalizer (aiGenerator, `normalizeCharacters`),
  * `cutoffAfterFields`    — the section cutoff detector (enhanced version, `cutoffAfterFields`),
  * `extractFieldSpecifications` — the field-specification extractor,
  * `handleResponse`       — post-processing of the generation service's completion text,
  * `handleImportJSON`     — the JSON import handler,
  * `generateXml`          — the FieldSpec → XML compiler (ImportModal, `generateXml`).

JavaScript strings are modelled as Lean `String` / `List Char` (one entry per Unicode
scalar value; the sources only rely on BMP characters, where this agrees with JS
UTF-16 lengths).  Regular expressions used by the source are embedded as explicit
token-sequence matchers with set-of-remainders semantics, which coincides with the
backtracking semantics of the original patterns for the question "does the regex
match" that the source asks (`.test`, `.match`).
-/

/-! ### Basic characters and JS-style string helpers -/

/-- The apostrophe character, written via its code point. -/
def apos : Char := Char.ofNat 39

/-- Opening curly brace character. -/
def lbrace : Char := Char.ofNat 123

/-- Closing curly brace character. -/
def rbrace : Char := Char.ofNat 125

/-- JS `\s` / whitespace set used by `String.prototype.trim` and by the `\s`
regex class (WhiteSpace ∪ LineTerminator). -/
def isJsWs (c : Char) : Bool :=
  c = ' ' || c = '\t' || c = '\n' || c = '\u000B' || c = '\u000C' || c = '\r' ||
  c = ' ' || c = ' ' || (0x2000 ≤ c.toNat && c.toNat ≤ 0x200A) ||
  c = ' ' || c = ' ' || c = ' ' || c = ' ' || c = '　' ||
  c = '﻿'

/-- JS `String.prototype.trim` on a character list. -/
def jsTrimL (l : List Char) : List Char :=
  ((l.dropWhile isJsWs).reverse.dropWhile isJsWs).reverse

/-- JS `String.prototype.trim`. -/
def jsTrimS (s : String) : String := ⟨jsTrimL s.data⟩

/-- Lower-casing of a line, character by character (the source only inspects
ASCII keywords of the lowered text, where JS `toLowerCase` agrees with
`Char.toLower`). -/
def toLowerL (l : List Char) : List Char := l.map Char.toLower

/-- Case-sensitive "starts with" on character lists. -/
def isPref : List Char → List Char → Bool
  | [], _ => true
  | _ :: _, [] => false
  | p :: ps, c :: cs => p = c && isPref ps cs

/-- JS `String.prototype.includes` (case-sensitive substring search). -/
def containsSub (needle : List Char) : List Char → Bool
  | [] => isPref needle []
  | c :: rest => isPref needle (c :: rest) || containsSub needle rest

/-- Case-insensitive character comparison (ASCII case folding, as used by the
`/i` regex flag on the ASCII-only patterns of the source). -/
def ciEq (p c : Char) : Bool := p.toLower = c.toLower

/-- Case-insensitive "starts with". -/
def ciPref : List Char → List Char → Bool
  | [], _ => true
  | _ :: _, [] => false
  | p :: ps, c :: cs => ciEq p c && ciPref ps cs

/-- Case-insensitive substring search. -/
def containsSubCI (needle : List Char) : List Char → Bool
  | [] => ciPref needle []
  | c :: rest => ciPref needle (c :: rest) || containsSubCI needle rest

/-! ### Character normalizer (`normalizeCharacters`)

The source chains global `String.replace` calls whose patterns are single
characters (steps 1–9), then `\r\n → \n` and `\r → \n` (steps 10–11), then an
anchored BOM removal (step 12).  Because every replacement string of steps 1–9
contains no character matched by a later step, the chained single-character
replaces are exactly a per-character map, embedded as `normCharL`. -/

/-- Smart double quotes replaced by a straight quote. -/
def dquoteSet : List Char := ['“', '”', '„', '‟', '″', '‶']

/-- Smart single quotes replaced by an apostrophe. -/
def squoteSet : List Char := ['‘', '’', '‚', '‛', '′', '‵']

/-- Apostrophe variants replaced by an apostrophe. -/
def apostSet : List Char := ['ʼ', '՚', 'ߴ', 'ߵ']

/-- Dash variants (U+2010 – U+2015) replaced by a hyphen. -/
def isDashChar (c : Char) : Bool := 0x2010 ≤ c.toNat && c.toNat ≤ 0x2015

/-- Space variants replaced by a plain space. -/
def isSpecialSpace (c : Char) : Bool :=
  c = ' ' || c = ' ' || (0x2000 ≤ c.toNat && c.toNat ≤ 0x200B) ||
  c = ' ' || c = ' ' || c = '　'

/-- Guillemets / angle quotes replaced by a straight quote. -/
def guillemetSet : List Char := ['«', '»', '‹', '›']

/-- Bullet variants replaced by a hyphen. -/
def bulletSet : List Char := ['•', '‣', '⁃', '⁌', '⁍', '∙']

/-- Zero-width characters and BOM, removed.  (U+200B is already consumed by the
space step, exactly as in the source where the space replace runs first.) -/
def isZeroWidth (c : Char) : Bool :=
  (0x200B ≤ c.toNat && c.toNat ≤ 0x200D) || c = '﻿'

/-- Per-character effect of the chained replaces of `normalizeCharacters`,
in the source's order. -/
def normCharL (c : Char) : List Char :=
  if dquoteSet.contains c then ['"']
  else if squoteSet.contains c then [apos]
  else if apostSet.contains c then [apos]
  else if isDashChar c then ['-']
  else if isSpecialSpace c then [' ']
  else if c = '…' then ['.', '.', '.']
  else if guillemetSet.contains c then ['"']
  else if bulletSet.contains c then ['-']
  else if isZeroWidth c then []
  else [c]

/-- Steps 1–9 of `normalizeCharacters`, applied to the whole text. -/
def normMap (l : List Char) : List Char := l.flatMap normCharL

/-- Steps 10–11: `.replace(/\r\n/g, '\n').replace(/\r/g, '\n')` — both global
replaces scan left to right without rescanning, which is exactly this
recursion. -/
def crlfToLf : List Char → List Char
  | [] => []
  | [a] => if a = '\r' then ['\n'] else [a]
  | a :: b :: rest =>
    if a = '\r' then
      if b = '\n' then '\n' :: crlfToLf rest else '\n' :: crlfToLf (b :: rest)
    else a :: crlfToLf (b :: rest)

/-- Step 12: the anchored removal of a leading byte-order mark (U+FEFF). -/
def dropBOM : List Char → List Char
  | [] => []
  | c :: rest => if c = '﻿' then rest else c :: rest

/-- `normalizeCharacters` from `aiGenerator.js`.  (The `if (!text) return text`
guard only short-circuits the empty string, on which the pipeline is the
identity anyway.) -/
def normalizeCharacters (s : String) : String :=
  ⟨dropBOM (crlfToLf (normMap s.data))⟩

/-! #### Idempotence of the normalizer -/

/-- A character the per-character normalizer maps to itself. -/
def NormFixed (c : Char) : Prop := normCharL c = [c]

theorem normCharL_cases (c : Char) :
    normCharL c = [c] ∨ normCharL c = ['"'] ∨ normCharL c = [apos] ∨ normCharL c = ['-'] ∨
      normCharL c = [' '] ∨ normCharL c = ['.', '.', '.'] ∨ normCharL c = [] := by
  unfold normCharL
  repeat' split
  all_goals first
    | exact Or.inl rfl
    | (right; decide)

theorem normFixed_of_mem_normCharL {c d : Char} (hd : d ∈ normCharL c) : NormFixed d := by
  rcases normCharL_cases c with h | h | h | h | h | h | h <;> rw [h] at hd
  · have hdc : d = c := by simpa using hd
    rw [hdc]; exact h
  all_goals (unfold NormFixed; fin_cases hd <;> decide)

theorem normFixed_of_mem_normMap {l : List Char} {d : Char} (hd : d ∈ normMap l) :
    NormFixed d := by
  unfold normMap at hd
  rw [List.mem_flatMap] at hd
  obtain ⟨c, _, hdc⟩ := hd
  exact normFixed_of_mem_normCharL hdc

theorem normMap_fixed : ∀ l : List Char, (∀ c ∈ l, NormFixed c) → normMap l = l := by
  intro l h
  induction l with
  | nil => rfl
  | cons a rest ih =>
    have ha : NormFixed a := h a (List.mem_cons_self a rest)
    have hstep : normMap (a :: rest) = normCharL a ++ normMap rest := by
      simp [normMap]
    rw [hstep, ha, ih fun c hc => h c (List.mem_cons_of_mem a hc)]
    rfl

theorem crlf_eq2 : crlfToLf ['\r'] = ['\n'] := rfl

theorem crlf_eq3 (a : Char) (ha : a ≠ '\r') : crlfToLf [a] = [a] := by
  simp [crlfToLf, ha]

theorem crlf_eq4 (rest : List Char) :
    crlfToLf ('\r' :: '\n' :: rest) = '\n' :: crlfToLf rest := by
  simp [crlfToLf]

theorem crlf_eq5 (b : Char) (rest : List Char) (hb : b ≠ '\n') :
    crlfToLf ('\r' :: b :: rest) = '\n' :: crlfToLf (b :: rest) := by
  simp [crlfToLf, hb]

theorem crlf_eq6 (a b : Char) (rest : List Char) (ha : a ≠ '\r') :
    crlfToLf (a :: b :: rest) = a :: crlfToLf (b :: rest) := by
  simp [crlfToLf, ha]

theorem mem_crlfToLf (c : Char) : ∀ l : List Char, c ∈ crlfToLf l → c ∈ l ∨ c = '\n' := by
  intro l
  induction l using crlfToLf.induct with
  | case1 => intro hc; cases hc
  | case2 =>
    intro hc
    rw [crlf_eq2] at hc
    exact Or.inr (by simpa using hc)
  | case3 a ha =>
    intro hc
    rw [crlf_eq3 a ha] at hc
    exact Or.inl hc
  | case4 rest ih =>
    intro hc
    rw [crlf_eq4] at hc
    rcases List.mem_cons.mp hc with h | h
    · exact Or.inr h
    · rcases ih h with h2 | h2
      · exact Or.inl (List.mem_cons_of_mem _ (List.mem_cons_of_mem _ h2))
      · exact Or.inr h2
  | case5 b rest hb ih =>
    intro hc
    rw [crlf_eq5 b rest hb] at hc
    rcases List.mem_cons.mp hc with h | h
    · exact Or.inr h
    · rcases ih h with h2 | h2
      · exact Or.inl (List.mem_cons_of_mem _ h2)
      · exact Or.inr h2
  | case6 a b rest ha ih =>
    intro hc
    rw [crlf_eq6 a b rest ha] at hc
    rcases List.mem_cons.mp hc with h | h
    · subst h; exact Or.inl (List.mem_cons_self _ _)
    · rcases ih h with h2 | h2
      · exact Or.inl (List.mem_cons_of_mem _ h2)
      · exact Or.inr h2

theorem not_cr_crlfToLf : ∀ l : List Char, '\r' ∉ crlfToLf l := by
  intro l
  induction l using crlfToLf.induct with
  | case1 => simp [crlfToLf]
  | case2 => decide
  | case3 a ha =>
    rw [crlf_eq3 a ha]
    intro h
    exact ha (List.mem_singleton.mp h).symm
  | case4 rest ih =>
    rw [crlf_eq4]
    intro h
    rcases List.mem_cons.mp h with h2 | h2
    · exact absurd h2 (by decide)
    · exact ih h2
  | case5 b rest hb ih =>
    rw [crlf_eq5 b rest hb]
    intro h
    rcases List.mem_cons.mp h with h2 | h2
    · exact absurd h2 (by decide)
    · exact ih h2
  | case6 a b rest ha ih =>
    rw [crlf_eq6 a b rest ha]
    intro h
    rcases List.mem_cons.mp h with h2 | h2
    · exact ha h2.symm
    · exact ih h2

theorem crlfToLf_of_not_cr : ∀ l : List Char, '\r' ∉ l → crlfToLf l = l := by
  intro l
  induction l with
  | nil => intro _; rfl
  | cons a tl ih =>
    intro h
    have ha : a ≠ '\r' := fun hh => h (by simp [hh])
    have htl : '\r' ∉ tl := fun hh => h (List.mem_cons_of_mem a hh)
    cases tl with
    | nil => exact crlf_eq3 a ha
    | cons b rest => rw [crlf_eq6 a b rest ha, ih htl]

theorem mem_dropBOM {l : List Char} {c : Char} (hc : c ∈ dropBOM l) : c ∈ l := by
  cases l with
  | nil => cases hc
  | cons a rest =>
    by_cases ha : a = '﻿'
    · rw [show dropBOM (a :: rest) = rest from by simp [dropBOM, ha]] at hc
      exact List.mem_cons_of_mem a hc
    · rwa [show dropBOM (a :: rest) = a :: rest from by simp [dropBOM, ha]] at hc

theorem not_normFixed_bom : ¬ NormFixed '﻿' := by
  unfold NormFixed; decide

theorem dropBOM_of_fixed (l : List Char) (h : ∀ c ∈ l, NormFixed c) : dropBOM l = l := by
  cases l with
  | nil => rfl
  | cons a rest =>
    have ha : a ≠ '﻿' := by
      intro hh
      exact not_normFixed_bom (hh ▸ h a (List.mem_cons_self a rest))
    simp [dropBOM, ha]

/-- C3: the character normalizer is idempotent — normalizing twice equals
normalizing once, for every input string.  (`normalizeCharacters` is a total
Lean function, so totality is by construction.) -/
theorem normalizeCharacters_idempotent (s : String) :
    normalizeCharacters (normalizeCharacters s) = normalizeCharacters s := by
  unfold normalizeCharacters
  have hfix : ∀ c ∈ dropBOM (crlfToLf (normMap s.data)), NormFixed c := by
    intro c hc
    rcases mem_crlfToLf c _ (mem_dropBOM hc) with h | h
    · exact normFixed_of_mem_normMap h
    · rw [h]; unfold NormFixed; decide
  have hnr : '\r' ∉ dropBOM (crlfToLf (normMap s.data)) := by
    intro hc
    exact not_cr_crlfToLf _ (mem_dropBOM hc)
  have hdata : (⟨dropBOM (crlfToLf (normMap s.data))⟩ : String).data
      = dropBOM (crlfToLf (normMap s.data)) := rfl
  rw [hdata, normMap_fixed _ hfix, crlfToLf_of_not_cr _ hnr, dropBOM_of_fixed _ hfix]

/-! ### Embedded regular expressions

Each regex the source `.test`s against a single line is embedded as a sequence
of tokens; `runSeq` returns the set of possible remainders (backtracking =
set semantics), and the regex matches iff that set is non-empty.  Groups and
optional letters (`s?`, `(and|&)?`, …) are expanded into top-level
alternatives. -/

/-- `\w` — JS word character `[A-Za-z0-9_]`. -/
def isWordChar (c : Char) : Bool :=
  ('a' ≤ c && c ≤ 'z') || ('A' ≤ c && c ≤ 'Z') || ('0' ≤ c && c ≤ '9') || c = '_'

/-- `\d` — ASCII digit. -/
def isAsciiDigit (c : Char) : Bool := '0' ≤ c && c ≤ '9'

/-- Does the list start with `__c` (case-insensitive, the `/i` flag)? -/
def startsWithUUC (l : List Char) : Bool :=
  match l with
  | '_' :: '_' :: c :: _ => c = 'c' || c = 'C'
  | _ => false

/-- After at least one word character: either `__c` starts here, or consume one
more word character (the backtracking tail of `\w+__c`). -/
def uucSearch : List Char → Bool
  | [] => false
  | c :: rest => startsWithUUC (c :: rest) || (isWordChar c && uucSearch rest)

/-- `\w+__c` anchored at the start of the list. -/
def wplusUUC : List Char → Bool
  | [] => false
  | c :: rest => isWordChar c && uucSearch rest

/-- Number of leading characters satisfying `p`. -/
def countWhile (p : Char → Bool) (l : List Char) : Nat := (l.takeWhile p).length

/-- Tokens of the embedded line regexes.  `wordUUC`, `containsCI` and `endWs`
only ever appear as the final token of a sequence. -/
inductive RTok where
  | lit (s : String)        -- case-insensitive literal
  | wsPlus                  -- \s+
  | wsStar                  -- \s*
  | hashes (lo hi : Nat)    -- a run of lo..hi '#'
  | digitsPlus              -- \d+
  | star2                   -- \*?\*?
  | wordUUC                 -- \w+__c   (final)
  | endWs                   -- \s*$     (final)

/-- All possible remainders after one token. -/
def runTok : RTok → List Char → List (List Char)
  | .lit s, l => if ciPref s.data l then [l.drop s.data.length] else []
  | .wsPlus, l => (List.range (countWhile isJsWs l)).map (fun i => l.drop (i + 1))
  | .wsStar, l => (List.range (countWhile isJsWs l + 1)).map (fun i => l.drop i)
  | .hashes lo hi, l =>
    ((List.range (hi + 1)).filter
      (fun j => lo ≤ j && j ≤ countWhile (fun c => c = '#') l)).map (fun j => l.drop j)
  | .digitsPlus, l => (List.range (countWhile isAsciiDigit l)).map (fun i => l.drop (i + 1))
  | .star2, l =>
    [l] ++ (match l with
      | '*' :: r => [r] ++ (match r with | '*' :: r2 => [r2] | _ => [])
      | _ => [])
  | .wordUUC, l => if wplusUUC l then [[]] else []
  | .endWs, l => if l.all isJsWs then [[]] else []

/-- All possible remainders after a token sequence. -/
def runSeq : List RTok → List Char → List (List Char)
  | [], l => [l]
  | t :: ts, l => (runTok t l).flatMap (runSeq ts)

/-- The sequence matches at the start of the list (unanchored at the end). -/
def matchSeq (toks : List RTok) (l : List Char) : Bool := !(runSeq toks l).isEmpty

/-! ### Section cutoff detector (`cutoffAfterFields`, enhanced version) -/

/-- `/^###?\s+\*?\*?\d+\.\s+\w+__c/i` — the numbered field header pattern. -/
def fieldHeaderToks : List RTok :=
  [.hashes 2 3, .wsPlus, .star2, .digitsPlus, .lit ".", .wsPlus, .wordUUC]

/-- Test for the numbered field header pattern on a (trimmed) line. -/
def matchesFieldHeader (t : List Char) : Bool := matchSeq fieldHeaderToks t

/-- Keywords whose presence in the lowered line makes the backward field scan
skip the line (STEP 1 of the cutoff). -/
def nonFieldKw1 : List String :=
  ["validation", "workflow", "error condition", "error message", "dashboard", "report",
   "page layout", "lightning component"]

/-- Line-skip test for the backward field-header scan. -/
def isNonFieldSection1 (low : List Char) : Bool :=
  nonFieldKw1.any (fun k => containsSub k.data low)

/-- Keywords of the skip test of the fallback backward scan. -/
def nonFieldKw2 : List String := ["validation", "workflow", "dashboard", "report"]

/-- Line-skip test for the fallback backward scan. -/
def isNonFieldSection2 (low : List Char) : Bool :=
  nonFieldKw2.any (fun k => containsSub k.data low)

/-- `/API Name:\s*\w+__c/i` anchored here. -/
def apiNameAt (l : List Char) : Bool :=
  ciPref "API Name:".data l && wplusUUC ((l.drop 9).dropWhile isJsWs)

/-- `/API Name:\s*\w+__c/i` — unanchored search over the line. -/
def apiNameSearch : List Char → Bool
  | [] => false
  | c :: rest => apiNameAt (c :: rest) || apiNameSearch rest

/-- The three looser field indicators of the fallback scan:
`/API Name:\s*\w+__c/im`, `/^Field Label:/im`, `/Data Type:/im`. -/
def fbPatterns (t : List Char) : Bool :=
  apiNameSearch t || ciPref "Field Label:".data t || containsSubCI "Data Type:".data t

/-- Lines paired with their indices, starting at `i`. -/
def enumL {α : Type} : Nat → List α → List (Nat × α)
  | _, [] => []
  | i, x :: xs => (i, x) :: enumL (i + 1) xs

/-- STEP 1: backward scan for the last numbered field header (input is the
enumerated line list, already reversed). -/
def scanBackFieldHeader : List (Nat × List Char) → Option Nat
  | [] => none
  | (i, ln) :: rest =>
    let t := jsTrimL ln
    let low := toLowerL t
    if isNonFieldSection1 low then scanBackFieldHeader rest
    else if matchesFieldHeader t then some i
    else scanBackFieldHeader rest

/-- Fallback backward scan for looser field indicators. -/
def scanBackFallback : List (Nat × List Char) → Option Nat
  | [] => none
  | (i, ln) :: rest =>
    let t := jsTrimL ln
    let low := toLowerL t
    if isNonFieldSection2 low then scanBackFallback rest
    else if fbPatterns t then some i
    else scanBackFallback rest

/-- `lastFieldLine` after STEP 1 and its fallback (`-1` when nothing found). -/
def findLastField (lines : List (List Char)) : Int :=
  match scanBackFieldHeader (enumL 0 lines).reverse with
  | some i => (i : Int)
  | none =>
    match scanBackFallback (enumL 0 lines).reverse with
    | some i => (i : Int)
    | none => -1

/-- Common prefix `^#{1,3}\s+\*?\*?` of every cutoff marker. -/
def mkMarker (rest : List RTok) : List RTok := [.hashes 1 3, .wsPlus, .star2] ++ rest

/-- The 26 `cutoffMarkers` regexes, expanded into alternative token
sequences (a trailing `s?`/`…?` at the very end of a pattern is dropped, a
non-trailing one is expanded into both alternatives). -/
def cutoffMarkerAlts : List (List RTok) :=
  [ -- Key Validation Rules?
    mkMarker [.lit "Key", .wsPlus, .lit "Validation", .wsPlus, .lit "Rule"],
    -- Validation Rules?\s*$
    mkMarker [.lit "Validation", .wsPlus, .lit "Rule", .endWs],
    mkMarker [.lit "Validation", .wsPlus, .lit "Rules", .endWs],
    -- Page Layouts?\s*$
    mkMarker [.lit "Page", .wsPlus, .lit "Layout", .endWs],
    mkMarker [.lit "Page", .wsPlus, .lit "Layouts", .endWs],
    -- Record Types?\s*$
    mkMarker [.lit "Record", .wsPlus, .lit "Type", .endWs],
    mkMarker [.lit "Record", .wsPlus, .lit "Types", .endWs],
    -- Workflow Rules?
    mkMarker [.lit "Workflow", .wsPlus, .lit "Rule"],
    -- Process Builder
    mkMarker [.lit "Process", .wsPlus, .lit "Builder"],
    -- Workflow Automation
    mkMarker [.lit "Workflow", .wsPlus, .lit "Automation"],
    -- Flows?\s*$
    mkMarker [.lit "Flow", .endWs],
    mkMarker [.lit "Flows", .endWs],
    -- Apex (Triggers?|Classes?)
    mkMarker [.lit "Apex", .wsPlus, .lit "Trigger"],
    mkMarker [.lit "Apex", .wsPlus, .lit "Class"],
    -- Lightning Components?\s+(to\s+Build|Recommendations?)
    mkMarker [.lit "Lightning", .wsPlus, .lit "Component", .wsPlus, .lit "to", .wsPlus, .lit "Build"],
    mkMarker [.lit "Lightning", .wsPlus, .lit "Components", .wsPlus, .lit "to", .wsPlus, .lit "Build"],
    mkMarker [.lit "Lightning", .wsPlus, .lit "Component", .wsPlus, .lit "Recommendation"],
    mkMarker [.lit "Lightning", .wsPlus, .lit "Components", .wsPlus, .lit "Recommendation"],
    -- Reports?\s+(and|&)?\s+Dashboards?
    mkMarker [.lit "Report", .wsPlus, .lit "and", .wsPlus, .lit "Dashboard"],
    mkMarker [.lit "Report", .wsPlus, .lit "&", .wsPlus, .lit "Dashboard"],
    mkMarker [.lit "Report", .wsPlus, .wsPlus, .lit "Dashboard"],
    mkMarker [.lit "Reports", .wsPlus, .lit "and", .wsPlus, .lit "Dashboard"],
    mkMarker [.lit "Reports", .wsPlus, .lit "&", .wsPlus, .lit "Dashboard"],
    mkMarker [.lit "Reports", .wsPlus, .wsPlus, .lit "Dashboard"],
    -- Integration Points?
    mkMarker [.lit "Integration", .wsPlus, .lit "Point"],
    -- Integration Considerations
    mkMarker [.lit "Integration", .wsPlus, .lit "Considerations"],
    -- Security (and|&|Settings)
    mkMarker [.lit "Security", .wsPlus, .lit "and"],
    mkMarker [.lit "Security", .wsPlus, .lit "&"],
    mkMarker [.lit "Security", .wsPlus, .lit "Settings"],
    -- Sharing Settings
    mkMarker [.lit "Sharing", .wsPlus, .lit "Settings"],
    -- Permissions?\s*$
    mkMarker [.lit "Permission", .endWs],
    mkMarker [.lit "Permissions", .endWs],
    -- Best Practices
    mkMarker [.lit "Best", .wsPlus, .lit "Practices"],
    -- Success Metrics
    mkMarker [.lit "Success", .wsPlus, .lit "Metrics"],
    -- Training Materials
    mkMarker [.lit "Training", .wsPlus, .lit "Materials"],
    -- Maintenance
    mkMarker [.lit "Maintenance"],
    -- Support
    mkMarker [.lit "Support"],
    -- Summary\s*$
    mkMarker [.lit "Summary", .endWs],
    -- Related Lists?\s*$
    mkMarker [.lit "Related", .wsPlus, .lit "List", .endWs],
    mkMarker [.lit "Related", .wsPlus, .lit "Lists", .endWs],
    -- Mobile Layout
    mkMarker [.lit "Mobile", .wsPlus, .lit "Layout"],
    -- Deployment
    mkMarker [.lit "Deployment"],
    -- Testing
    mkMarker [.lit "Testing"] ]

/-- `cutoffMarkers.some(marker => marker.test(line))` on a trimmed line. -/
def anyCutoffMarker (t : List Char) : Bool :=
  cutoffMarkerAlts.any (fun sq => matchSeq sq t)

/-- STEP 2: forward scan for the first cutoff marker after the grace buffer;
returns `total` (the number of lines) when no marker fires. -/
def findCutoffGo (lfl : Int) (total : Nat) : List (Nat × List Char) → Nat
  | [] => total
  | (i, ln) :: rest =>
    if 0 < lfl ∧ (i : Int) ≤ lfl + 15 then findCutoffGo lfl total rest
    else if anyCutoffMarker (jsTrimL ln) then i
    else findCutoffGo lfl total rest

/-- `cutoffLine` of the cutoff detector. -/
def findCutoff (lines : List (List Char)) (lfl : Int) : Nat :=
  findCutoffGo lfl lines.length (enumL 0 lines)

/-- A forward marker scan with no grace buffer at all (used to state what the
buffer-less scan computes). -/
def firstMarkerLineGo (total : Nat) : List (Nat × List Char) → Nat
  | [] => total
  | (i, ln) :: rest =>
    if anyCutoffMarker (jsTrimL ln) then i else firstMarkerLineGo total rest

/-- First line index carrying a cutoff marker, scanning every line from 0. -/
def firstMarkerLine (lines : List (List Char)) : Nat :=
  firstMarkerLineGo lines.length (enumL 0 lines)

/-- `text.split('\n')`. -/
def splitNl : List Char → List (List Char)
  | [] => [[]]
  | c :: rest =>
    if c = '\n' then [] :: splitNl rest
    else
      match splitNl rest with
      | [] => [[c]]
      | h :: t => (c :: h) :: t

/-- `lines.join('\n')`. -/
def joinNl : List (List Char) → List Char
  | [] => []
  | [x] => x
  | x :: y :: rest => x ++ '\n' :: joinNl (y :: rest)

/-- `cutoffAfterFields` (enhanced version): find the last field line, then cut
at the first marker after the 15-line grace buffer.  The three occurrences of
`splitNl s.data` are the source's `lines` local. -/
def cutoffAfterFields (s : String) : String :=
  if findCutoff (splitNl s.data) (findLastField (splitNl s.data)) < (splitNl s.data).length then
    ⟨joinNl ((splitNl s.data).take
      (findCutoff (splitNl s.data) (findLastField (splitNl s.data))))⟩
  else s

/-! #### The cutoff returns a prefix of its input -/

theorem splitNl_ne_nil : ∀ l : List Char, splitNl l ≠ [] := by
  intro l
  cases l with
  | nil => simp [splitNl]
  | cons c rest =>
    by_cases h : c = '\n'
    · simp [splitNl, h]
    · cases hsr : splitNl rest <;> simp [splitNl, h, hsr]

theorem joinNl_cons_cons (x y : List Char) (t : List (List Char)) :
    joinNl ((x ++ y) :: t) = x ++ joinNl (y :: t) := by
  cases t with
  | nil => rfl
  | cons z t2 => simp [joinNl]

theorem joinNl_splitNl : ∀ l : List Char, joinNl (splitNl l) = l := by
  intro l
  induction l with
  | nil => rfl
  | cons c rest ih =>
    by_cases h : c = '\n'
    · subst h
      have hsp : splitNl ('\n' :: rest) = [] :: splitNl rest := by simp [splitNl]
      obtain ⟨h1, t1, hh⟩ := List.exists_cons_of_ne_nil (splitNl_ne_nil rest)
      rw [hsp, hh]
      have : joinNl ([] :: h1 :: t1) = '\n' :: joinNl (h1 :: t1) := rfl
      rw [this, ← hh, ih]
    · obtain ⟨h1, t1, hh⟩ := List.exists_cons_of_ne_nil (splitNl_ne_nil rest)
      have hsp : splitNl (c :: rest) = (c :: h1) :: t1 := by
        simp only [splitNl, h, if_false, hh]
      rw [hsp]
      have : joinNl ((c :: h1) :: t1) = c :: joinNl (h1 :: t1) := by
        cases t1 <;> rfl
      rw [this, ← hh, ih]

theorem pref_append_left (x : List Char) {A B : List Char} (h : A <+: B) :
    x ++ A <+: x ++ B := by
  obtain ⟨t, ht⟩ := h
  exact ⟨t, by rw [List.append_assoc, ht]⟩

theorem joinNl_take_prefix : ∀ (xs : List (List Char)) (k : Nat),
    joinNl (xs.take k) <+: joinNl xs := by
  intro xs
  induction xs with
  | nil => intro k; simp [joinNl]
  | cons x t ih =>
    intro k
    cases k with
    | zero => exact List.nil_prefix
    | succ k' =>
      rw [List.take_succ_cons]
      cases t with
      | nil => simp [joinNl]
      | cons y t2 =>
        cases k' with
        | zero =>
          exact ⟨'\n' :: joinNl (y :: t2), rfl⟩
        | succ k'' =>
          have h1 : joinNl ((y :: t2).take (k'' + 1)) <+: joinNl (y :: t2) := ih (k'' + 1)
          rw [List.take_succ_cons] at h1
          rw [List.take_succ_cons]
          have h2 : joinNl (x :: y :: t2.take k'') = x ++ '\n' :: joinNl (y :: t2.take k'') :=
            rfl
          have h3 : joinNl (x :: y :: t2) = x ++ '\n' :: joinNl (y :: t2) := rfl
          rw [h2, h3]
          exact pref_append_left x (List.cons_prefix_cons.mpr ⟨rfl, h1⟩)

/-- C7: `cutoffAfterFields` returns a prefix of its input (it never appends or
reorders); in particular the cutoff of the normalized text is no longer than
the normalized text. -/
theorem cutoffAfterFields_is_prefix (s : String) :
    (cutoffAfterFields s).data <+: s.data ∧
      (cutoffAfterFields (normalizeCharacters s)).length ≤ (normalizeCharacters s).length := by
  have main : ∀ t : String, (cutoffAfterFields t).data <+: t.data := by
    intro t
    unfold cutoffAfterFields
    split
    · show joinNl ((splitNl t.data).take _) <+: t.data
      conv_rhs => rw [← joinNl_splitNl t.data]
      exact joinNl_take_prefix _ _
    · exact List.prefix_refl _
  refine ⟨main s, ?_⟩
  exact (main (normalizeCharacters s)).length_le

/-! #### Grace-buffer semantics of the forward cutoff scan -/

theorem findCutoffGo_buffer (lfl : Int) (total : Nat) (hk : 0 < lfl) :
    ∀ l : List (Nat × List Char),
      findCutoffGo lfl total l = total ∨ lfl + 15 < (findCutoffGo lfl total l : Int) := by
  intro l
  induction l with
  | nil => exact Or.inl rfl
  | cons p rest ih =>
    obtain ⟨i, ln⟩ := p
    unfold findCutoffGo
    split
    · exact ih
    · rename_i hskip
      split
      · right
        push_neg at hskip
        exact hskip hk
      · exact ih

theorem findCutoffGo_noskip (lfl : Int) (total : Nat) (hk : lfl ≤ 0) :
    ∀ l : List (Nat × List Char), findCutoffGo lfl total l = firstMarkerLineGo total l := by
  intro l
  induction l with
  | nil => rfl
  | cons p rest ih =>
    obtain ⟨i, ln⟩ := p
    unfold findCutoffGo firstMarkerLineGo
    have hskip : ¬(0 < lfl ∧ (i : Int) ≤ lfl + 15) := by
      intro h
      omega
    rw [if_neg hskip]
    split
    · rfl
    · exact ih

/-- C6 (amended): the grace buffer of the forward cutoff scan applies exactly
when the last-field index is positive — then no line up to `lastField + 15` can
trigger truncation (the scan either reports a line strictly beyond the buffer
or the total line count, meaning "no cutoff").  When the last-field index is 0
or −1 (no field marker found), no lines are skipped and the scan is the plain
first-marker scan from line 0. -/
theorem findCutoff_buffer_semantics (lines : List (List Char)) (lfl : Int) :
    (0 < lfl →
      findCutoff lines lfl = lines.length ∨ lfl + 15 < (findCutoff lines lfl : Int)) ∧
    (lfl ≤ 0 → findCutoff lines lfl = firstMarkerLine lines) := by
  constructor
  · intro hk
    exact findCutoffGo_buffer lfl lines.length hk (enumL 0 lines)
  · intro hk
    unfold findCutoff firstMarkerLine
    exact findCutoffGo_noskip lfl lines.length hk (enumL 0 lines)

/-- C6 witness: with a last field at (positive) line 1, the marker at line 1 of
`"a\n## Testing\nb"` falls inside the grace buffer, so no truncation happens;
with no last field (−1), the scan starts at line 0 with no buffer. -/
theorem findCutoff_buffer_semantics_witness :
    (findCutoff (splitNl "a\n## Testing\nb".data) 1 = (splitNl "a\n## Testing\nb".data).length ∨
      (1 : Int) + 15 < (findCutoff (splitNl "a\n## Testing\nb".data) 1 : Int)) ∧
    findCutoff (splitNl "a\n## Testing\nb".data) (-1) =
      firstMarkerLine (splitNl "a\n## Testing\nb".data) :=
  ⟨(findCutoff_buffer_semantics (splitNl "a\n## Testing\nb".data) 1).1 (by decide),
   (findCutoff_buffer_semantics (splitNl "a\n## Testing\nb".data) (-1)).2 (by decide)⟩

/-- C6 counterexample: on `"## 1. Foo__c\n## Testing\nx"` the last field line is
found at index 0, yet line 1 — inside the claimed `lastField + 15` buffer —
triggers truncation, because the source only applies the buffer when
`lastFieldLine > 0`. -/
theorem cutoff_buffer_at_zero_counterexample :
    findLastField (splitNl "## 1. Foo__c\n## Testing\nx".data) = 0 ∧
      findCutoff (splitNl "## 1. Foo__c\n## Testing\nx".data) 0 = 1 ∧
      ((1 : Int) ≤ 0 + 15) ∧
      cutoffAfterFields "## 1. Foo__c\n## Testing\nx" = "## 1. Foo__c" :=
  ⟨rfl, rfl, by decide, rfl⟩

/-! ### Field-specification extractor (`extractFieldSpecifications`) -/

/-- `/^\s*[-*•]\s+.*:/` — bullet-with-colon line.  (`.*` may absorb anything, so
after the mandatory whitespace the pattern reduces to "a colon occurs".) -/
def bulletColonPat (l : List Char) : Bool :=
  match l.dropWhile isJsWs with
  | [] => false
  | c :: rest =>
    (c = '-' || c = '*' || c = '•') && (countWhile isJsWs rest != 0) &&
      (rest.dropWhile isJsWs).contains ':'

/-- `/^[-*•]\s+(.*)\s*\(default\)/i` — bullet line carrying a `(default)`
annotation (no leading whitespace allowed before the bullet). -/
def defaultPat (l : List Char) : Bool :=
  match l with
  | [] => false
  | c :: rest =>
    (c = '-' || c = '*' || c = '•') && (countWhile isJsWs rest != 0) &&
      containsSubCI "(default)".data (rest.dropWhile isJsWs)

/-- `/\|\s*\w+\s*\|/` anchored here. -/
def tableRowAt (l : List Char) : Bool :=
  match l with
  | '|' :: rest =>
    let r1 := rest.dropWhile isJsWs
    let w := countWhile isWordChar r1
    w != 0 &&
      (match (r1.drop w).dropWhile isJsWs with
       | '|' :: _ => true
       | _ => false)
  | _ => false

/-- `/\|\s*\w+\s*\|/` — unanchored table-row-like test. -/
def tableRowSearch : List Char → Bool
  | [] => false
  | c :: rest => tableRowAt (c :: rest) || tableRowSearch rest

/-- `highValueKeywords` of the extractor. -/
def highValueKeywords : List String :=
  ["field label", "field type", "field name", "api name", "apiname",
   "lookup", "formula", "picklist", "master-detail", "master detail",
   "help text", "description", "relationship", "precision", "scale",
   "referenceto", "reference to", "data type"]

/-- `mediumValueKeywords` of the extractor. -/
def mediumValueKeywords : List String :=
  ["field", "type:", "label:", "required:", "help:", "values:",
   "formula:", "relationship:", "length:", "default:", "__c",
   "description:", "external id", "unique"]

/-- `sectionMarkers` of the extractor. -/
def sectionMarkers : List String := ["##", "###", "**", "####"]

/-- Header test: lowered trimmed line contains one of the field-info words. -/
def headerContainsFieldInfo (low : List Char) : Bool :=
  containsSub "field".data low || containsSub "specification".data low ||
  containsSub "requirement".data low || containsSub "data model".data low ||
  containsSub "schema".data low || containsSub "__c".data low ||
  containsSub "relationship".data low || containsSub "lookup".data low ||
  containsSub "formula".data low || containsSub "picklist".data low

/-- Accumulator of the extractor loop:
`(relevantSections, currentSection, sectionScore, inHighValueSection)`. -/
structure ExtState where
  sections : List (List Char)
  current : List (List Char)
  score : Nat
  inHigh : Bool

/-- Initial accumulator. -/
def extractInit : ExtState := ⟨[], [], 0, false⟩

/-- Per-line score of a non-header line (`lineScore` of the source). -/
def lineScoreOf (line : List Char) (low : List Char) : Nat :=
  (if highValueKeywords.any (fun k => containsSub k.data low) then 3 else 0) +
  (if mediumValueKeywords.any (fun k => containsSub k.data low) then 2 else 0) +
  (if bulletColonPat line then 2 else 0) +
  (if containsSub "__c".data line then 2 else 0) +
  (if defaultPat line then 2 else 0) +
  (if tableRowSearch line then 1 else 0) +
  (if containsSub "```".data line then 1 else 0)

/-- One iteration of the extractor's `for` loop. -/
def extractStep (st : ExtState) (line : List Char) : ExtState :=
  let low := jsTrimL (toLowerL line)
  let isNewSection := sectionMarkers.any (fun m => isPref m.data (jsTrimL line))
  if isNewSection then
    let sections :=
      if 2 ≤ st.score ∧ st.current ≠ [] then st.sections ++ [joinNl st.current]
      else st.sections
    let hdr := headerContainsFieldInfo low
    { sections := sections, current := [line],
      score := if hdr then 3 else 0, inHigh := hdr }
  else
    let isHigh := highValueKeywords.any (fun k => containsSub k.data low)
    let st2 : ExtState :=
      { sections := st.sections, current := st.current ++ [line],
        score := st.score + lineScoreOf line low,
        inHigh := st.inHigh || isHigh }
    if (jsTrimL line).length = 0 ∧ st2.inHigh = false ∧ st2.score < 1 ∧ 3 < st2.current.length
    then { st2 with current := [], score := 0 }
    else st2

/-- `sections.join('\n\n')`. -/
def joinNl2 : List (List Char) → List Char
  | [] => []
  | [x] => x
  | x :: y :: rest => x ++ '\n' :: '\n' :: joinNl2 (y :: rest)

/-- The scoring pass (STEP 4 of the source) applied to the already normalized
and cut text: run the loop, flush the last section, join and trim. -/
def extractScored (text : String) : List Char :=
  jsTrimL (joinNl2 (
    let fin := (splitNl text.data).foldl extractStep extractInit
    if 2 ≤ fin.score ∧ fin.current ≠ [] then fin.sections ++ [joinNl fin.current]
    else fin.sections))

/-- `extractFieldSpecifications` (enhanced version): blank input is returned
as-is; otherwise the text is normalized and cut, returned directly when under
3000 characters, and otherwise scored — falling back to the normalized/cut
text when the scored extraction is under 100 characters. -/
def extractFieldSpecifications (s : String) : String :=
  if s.data.all isJsWs then s
  else if (cutoffAfterFields (normalizeCharacters s)).length < 3000 then
    cutoffAfterFields (normalizeCharacters s)
  else if (extractScored (cutoffAfterFields (normalizeCharacters s))).length < 100 then
    cutoffAfterFields (normalizeCharacters s)
  else ⟨extractScored (cutoffAfterFields (normalizeCharacters s))⟩

/-- C4 (amended): for every input, either the extraction is at least 100
characters long, or `extractFieldSpecifications` returns the normalized and
cutoff-processed text (the blank-input early return giving back `s` itself). -/
theorem extract_safety_valve (s : String) :
    100 ≤ (extractFieldSpecifications s).length ∨
      extractFieldSpecifications s = cutoffAfterFields (normalizeCharacters s) ∨
      extractFieldSpecifications s = s := by
  unfold extractFieldSpecifications
  split
  · exact Or.inr (Or.inr rfl)
  · split
    · exact Or.inr (Or.inl rfl)
    · split
      · exact Or.inr (Or.inl rfl)
      · rename_i h
        left
        show 100 ≤ (extractScored (cutoffAfterFields (normalizeCharacters s))).length
        omega

/-- C4 counterexample: on `"## Testing\nabc"` the cutoff removes everything, so
the extractor returns the empty string — shorter than 100 characters and not
equal to the input. -/
theorem extract_safety_valve_counterexample :
    (extractFieldSpecifications "## Testing\nabc").length < 100 ∧
      extractFieldSpecifications "## Testing\nabc" ≠ "## Testing\nabc" := by
  constructor
  · have h : extractFieldSpecifications "## Testing\nabc" = "" := rfl
    rw [h]
    decide
  · decide

/-- C5 (amended): for every non-blank input whose normalized, cutoff-processed
text is under 3000 characters, `extractFieldSpecifications` returns that
processed text unchanged, skipping the scoring pass. -/
theorem extract_short_circuit (s : String)
    (h1 : s.data.all isJsWs = false)
    (h2 : (cutoffAfterFields (normalizeCharacters s)).length < 3000) :
    extractFieldSpecifications s = cutoffAfterFields (normalizeCharacters s) := by
  unfold extractFieldSpecifications
  rw [if_neg (by simp [h1]), if_pos h2]

/-- C5 witness: a short plain line goes through normalize + cutoff untouched
and is returned by the short-circuit branch. -/
theorem extract_short_circuit_witness :
    extractFieldSpecifications "Field Label: Name" =
      cutoffAfterFields (normalizeCharacters "Field Label: Name") :=
  extract_short_circuit "Field Label: Name" (by decide) (by decide)

/-- C5 counterexample: a 7-character input with smart quotes is under the
3000-character threshold but is not returned unchanged — the normalizer
rewrites its quotes before the short-circuit test. -/
theorem extract_short_circuit_counterexample :
    ("“hello”" : String).length < 3000 ∧
      extractFieldSpecifications "“hello”" ≠ "“hello”" := by
  constructor
  · decide
  · decide

/-! ### FieldSpec → XML compiler (`generateXml`) -/

/-- The fixed XML declaration line. -/
def XML_HEADER : String := "<?xml version=\"1.0\" encoding=\"UTF-8\"?>"

/-- The metadata namespace. -/
def XML_NAMESPACE : String := "http://soap.sforce.com/2006/04/metadata"

/-- Per-character XML escaping; the source's chained single-character global
replaces (`&`, `<`, `>`, `"`, `'`) equal this per-character map because no
replacement string contains a character replaced by a later step.  (The
source's falsy guard only short-circuits `''`, on which this is the identity.) -/
def escChar (c : Char) : String :=
  if c = '&' then "&amp;"
  else if c = '<' then "&lt;"
  else if c = '>' then "&gt;"
  else if c = '"' then "&quot;"
  else if c = apos then "&apos;"
  else String.singleton c

/-- `escapeXml` of the source. -/
def escapeXml (s : String) : String := ⟨s.data.flatMap (fun c => (escChar c).data)⟩

/-- The emitted tag line `indent<name>escaped</name>`. -/
def tagStr (name : String) (v : String) (indent : String) : String :=
  indent ++ "<" ++ name ++ ">" ++ escapeXml v ++ "</" ++ name ++ ">"

/-- `buildTag`: the whole tag is suppressed when the value is
undefined / null / the empty string. -/
def buildTag (name : String) (v : Option String) (indent : String) : String :=
  match v with
  | none => ""
  | some s => if s.isEmpty then "" else tagStr name s indent

/-- `buildTag` applied to a number value (a JS number is never
`undefined`/`null`/`''`, so the tag is always emitted). -/
def buildTagNat (name : String) (n : Nat) (indent : String) : String :=
  tagStr name (toString n) indent

/-- JS truthiness of an optional string. -/
def strTruthy : Option String → Bool
  | some s => !s.isEmpty
  | none => false

/-- JS truthiness of an optional number. -/
def natTruthy : Option Nat → Bool
  | some n => n != 0
  | none => false

/-- `x || d` for an optional string against a default. -/
def jsOr (o : Option String) (d : String) : String :=
  match o with
  | some s => if s.isEmpty then d else s
  | none => d

/-- `x || d` for an optional number. -/
def jsOrNat (o : Option Nat) (d : Nat) : Nat :=
  match o with
  | some n => if n = 0 then d else n
  | none => d

/-- `'true'` / `'false'`. -/
def boolStr (b : Bool) : String := if b then "true" else "false"

/-- `x !== undefined ? x : 'false'` for an optional boolean. -/
def optBoolStr (o : Option Bool) : String :=
  match o with
  | some b => boolStr b
  | none => "false"

/-- One picklist value `{fullName, label, default}`. -/
structure PicklistValue where
  fullName : String
  label : Option String
  default : Bool
deriving DecidableEq

/-- The in-memory field record.  `Option` models attributes that may be absent
(JS `undefined`); `type` is the type string, compared with `===` in the
source. -/
structure FieldSpec where
  apiName : Option String
  label : Option String
  type : String
  required : Bool
  trackHistory : Bool
  externalId : Option Bool
  unique : Option Bool
  defaultValue : Option Bool
  deleteConstraint : Option String
  formula : Option String
  treatBlanksAs : Option String
  returnType : Option String
  helpText : Option String
  length : Option Nat
  visibleLines : Option Nat
  precision : Option Nat
  scale : Option Nat
  referenceTo : Option String
  relationshipName : Option String
  relationshipLabel : Option String
  relationshipOrder : Option Nat
  reparentableMasterDetail : Option Bool
  writeRequiresMasterRead : Option Bool
  picklistValues : Option (List PicklistValue)
  restricted : Option Bool
deriving DecidableEq

/-- A field record with every attribute absent (base for concrete examples). -/
def emptyField : FieldSpec :=
  ⟨none, none, "", false, false, none, none, none, none, none, none, none, none,
   none, none, none, none, none, none, none, none, none, none, none, none⟩

/-- `['Number','Currency','Percent'].includes(t)`. -/
def numericType (t : String) : Prop := t = "Number" ∨ t = "Currency" ∨ t = "Percent"

instance (t : String) : Decidable (numericType t) := by unfold numericType; infer_instance

/-- `['Number','Currency','Percent'].includes(returnType)`. -/
def numericRet (o : Option String) : Prop :=
  o = some "Number" ∨ o = some "Currency" ∨ o = some "Percent"

instance (o : Option String) : Decidable (numericRet o) := by unfold numericRet; infer_instance

/-- `['Lookup','MasterDetail'].includes(t)`. -/
def lookupOrMD (t : String) : Prop := t = "Lookup" ∨ t = "MasterDetail"

instance (t : String) : Decidable (lookupOrMD t) := by unfold lookupOrMD; infer_instance

/-- `field.picklistValues && field.picklistValues.length > 0`. -/
def pvTruthy : Option (List PicklistValue) → Bool
  | some l => decide (0 < l.length)
  | none => false

/-- The five lines pushed for one picklist value. -/
def pvParts (pv : PicklistValue) : List String :=
  ["            <value>",
   buildTag "fullName" (some pv.fullName) "                ",
   buildTag "default" (some (boolStr pv.default)) "                ",
   buildTag "label" (some (jsOr pv.label pv.fullName)) "                ",
   "            </value>"]

/-- The pushes of `generateXml` before the `valueSet` block, in push order; a
conditional push is a conditional singleton segment. -/
def preValueSetParts (f : FieldSpec) : List String :=
  [XML_HEADER, "<CustomField xmlns=\"" ++ XML_NAMESPACE ++ "\">",
   buildTag "fullName" f.apiName "    "]
  ++ (if f.type = "Checkbox" then
        [buildTag "defaultValue"
          (some (if f.defaultValue = some true then "true" else "false")) "    "]
      else [])
  ++ (if f.type = "Lookup" ∧ strTruthy f.deleteConstraint then
        [buildTag "deleteConstraint" f.deleteConstraint "    "]
      else [])
  ++ (if f.externalId.isSome then
        [buildTag "externalId"
          (some (if f.externalId = some true then "true" else "false")) "    "]
      else [])
  ++ (if f.type = "Formula" ∧ strTruthy f.formula then
        [buildTag "formula" f.formula "    "]
      else [])
  ++ (if f.type = "Formula" then
        [buildTag "formulaTreatBlanksAs" (some (jsOr f.treatBlanksAs "BlankAsZero")) "    "]
      else [])
  ++ (if strTruthy f.helpText then [buildTag "inlineHelpText" f.helpText "    "] else [])
  ++ [buildTag "label" f.label "    "]
  ++ (if (f.type = "Text" ∨ f.type = "Email" ∨ f.type = "Phone" ∨ f.type = "Url" ∨
          f.type = "TextArea") ∧ natTruthy f.length then
        [buildTagNat "length" (f.length.getD 0) "    "]
      else [])
  ++ (if (f.type = "LongTextArea" ∨ f.type = "RichTextArea") ∧ natTruthy f.length then
        [buildTagNat "length" (f.length.getD 0) "    "]
      else [])
  ++ (if (f.type = "TextArea" ∨ f.type = "LongTextArea" ∨ f.type = "RichTextArea") ∧
          natTruthy f.visibleLines then
        [buildTagNat "visibleLines" (f.visibleLines.getD 0) "    "]
      else [])
  ++ (if numericType f.type ∨ (f.type = "Formula" ∧ numericRet f.returnType) then
        [buildTagNat "precision" (jsOrNat f.precision 18) "    "]
      else [])
  ++ (if lookupOrMD f.type ∧ strTruthy f.referenceTo then
        [buildTag "referenceTo" f.referenceTo "    "]
      else [])
  ++ (if lookupOrMD f.type ∧ strTruthy f.relationshipLabel then
        [buildTag "relationshipLabel" f.relationshipLabel "    "]
      else [])
  ++ (if lookupOrMD f.type ∧ strTruthy f.relationshipName then
        [buildTag "relationshipName" f.relationshipName "    "]
      else [])
  ++ (if f.type = "MasterDetail" then
        [buildTagNat "relationshipOrder" (f.relationshipOrder.getD 0) "    "]
      else [])
  ++ (if f.type = "MasterDetail" then
        [buildTag "reparentableMasterDetail" (some (optBoolStr f.reparentableMasterDetail)) "    "]
      else [])
  ++ (if f.type ≠ "MasterDetail" then
        [buildTag "required" (some (boolStr f.required)) "    "]
      else [])
  ++ (if numericType f.type ∨ (f.type = "Formula" ∧ numericRet f.returnType) then
        [buildTagNat "scale" (f.scale.getD 2) "    "]
      else [])
  ++ [buildTag "trackHistory" (some (boolStr f.trackHistory)) "    "]
  ++ (if f.type = "Formula" then [buildTag "type" (some (jsOr f.returnType "Text")) "    "]
      else [buildTag "type" (some f.type) "    "])
  ++ (if f.unique.isSome then
        [buildTag "unique" (some (if f.unique = some true then "true" else "false")) "    "]
      else [])

/-- The `valueSet` block pushes (empty unless the type is a picklist type). -/
def valueSetParts (f : FieldSpec) : List String :=
  (if f.type = "Picklist" ∨ f.type = "MultiselectPicklist" then
        ["    <valueSet>",
         buildTag "restricted"
           (some (if f.restricted = some false then "false" else "true")) "        ",
         "        <valueSetDefinition>",
         "            <sorted>false</sorted>"]
        ++ (if pvTruthy f.picklistValues then (f.picklistValues.getD []).flatMap pvParts
            else [])
        ++ ["        </valueSetDefinition>", "    </valueSet>"]
      else [])

/-- The pushes of `generateXml` after the `valueSet` block. -/
def postValueSetParts (f : FieldSpec) : List String :=
  (if f.type = "MultiselectPicklist" ∧ natTruthy f.visibleLines then
        [buildTagNat "visibleLines" (f.visibleLines.getD 0) "    "]
      else [])
  ++ (if f.type = "MasterDetail" then
        [buildTag "writeRequiresMasterRead" (some (optBoolStr f.writeRequiresMasterRead)) "    "]
      else [])
  ++ ["</CustomField>"]

/-- The `parts` array of `generateXml`, in push order. -/
def generateXmlParts (f : FieldSpec) : List String :=
  preValueSetParts f ++ valueSetParts f ++ postValueSetParts f

/-- `generateXml`: join the non-empty parts with newlines. -/
def generateXml (f : FieldSpec) : String :=
  String.intercalate "\n" ((generateXmlParts f).filter (fun p => p != ""))

theorem data_append (s t : String) : (s ++ t).data = s.data ++ t.data := by
  cases s; cases t; rfl

def refToPref : List Char := "    <referenceTo>".data

theorem not_pref_append {t a : List Char} (b : List Char)
    (h1 : ¬ t <+: a) (h2 : ¬ a <+: t) : ¬ t <+: a ++ b := by
  intro h
  rcases List.prefix_or_prefix_of_prefix h (List.prefix_append a b) with hh | hh
  · exact h1 hh
  · exact h2 hh

theorem tagStr_data (name v ind : String) :
    (tagStr name v ind).data =
      (ind ++ "<" ++ name ++ ">").data ++ (escapeXml v ++ ("</" ++ name ++ ">")).data := by
  unfold tagStr
  simp [data_append, List.append_assoc]

theorem refToPref_not_tagStr (name v ind : String)
    (h1 : ¬ refToPref <+: (ind ++ "<" ++ name ++ ">").data)
    (h2 : ¬ (ind ++ "<" ++ name ++ ">").data <+: refToPref) :
    ¬ refToPref <+: (tagStr name v ind).data := by
  rw [tagStr_data]
  exact not_pref_append _ h1 h2

theorem refToPref_not_buildTag (name : String) (v : Option String) (ind : String)
    (h1 : ¬ refToPref <+: (ind ++ "<" ++ name ++ ">").data)
    (h2 : ¬ (ind ++ "<" ++ name ++ ">").data <+: refToPref) :
    ¬ refToPref <+: (buildTag name v ind).data := by
  cases v with
  | none =>
    show ¬ refToPref <+: ("" : String).data
    decide
  | some s =>
    show ¬ refToPref <+: (if s.isEmpty then "" else tagStr name s ind).data
    split
    · decide
    · exact refToPref_not_tagStr name s ind h1 h2

theorem refToPref_not_buildTagNat (name : String) (n : Nat) (ind : String)
    (h1 : ¬ refToPref <+: (ind ++ "<" ++ name ++ ">").data)
    (h2 : ¬ (ind ++ "<" ++ name ++ ">").data <+: refToPref) :
    ¬ refToPref <+: (buildTagNat name n ind).data :=
  refToPref_not_tagStr name (toString n) ind h1 h2

theorem eq_of_mem_ite_singleton {c : Prop} [Decidable c] {x p : String}
    (h : p ∈ (if c then [x] else [])) : p = x := by
  by_cases hc : c
  · rw [if_pos hc] at h; exact List.mem_singleton.mp h
  · rw [if_neg hc] at h; cases h

theorem not_mem_ite_nil {c : Prop} [Decidable c] {l : List String} {p : String}
    (hc : ¬ c) (h : p ∈ (if c then l else [])) : False := by
  rw [if_neg hc] at h; cases h

/-- C1: for every FieldSpec of type Formula the compiled document is
independent of any stray `referenceTo` attribute, and no line of the compiled
parts ever starts a `referenceTo` tag — attributes not applicable to the
current type are omitted regardless of their presence on the record. -/
theorem generateXml_formula_no_referenceTo (f : FieldSpec) (h : f.type = "Formula") :
    generateXml f = generateXml { f with referenceTo := none } ∧
      ∀ p ∈ generateXmlParts f, ¬ refToPref <+: p.data := by
  obtain ⟨apiN, lab, ty, req, trk, ext, uniq, dflt, delC, frm, tba, rtyp, hlp, len, vis,
    prec, scl, refT, relN, relL, relO, repMD, wrm, pvs, restr⟩ := f
  replace h : ty = "Formula" := h
  subst h
  have hLMD : ¬ lookupOrMD "Formula" := by decide
  have hneg : ∀ o : Option String, ¬ (lookupOrMD "Formula" ∧ strTruthy o = true) :=
    fun o hand => hLMD hand.1
  constructor
  · unfold generateXml generateXmlParts preValueSetParts valueSetParts postValueSetParts
    dsimp only
    rw [if_neg (hneg refT), if_neg (hneg none)]
  · intro p hp
    unfold generateXmlParts preValueSetParts valueSetParts postValueSetParts at hp
    simp only [List.mem_append, List.mem_cons, List.mem_singleton, or_assoc,
      List.not_mem_nil, or_false, false_or, if_true, true_and, ne_eq] at hp
    rcases hp with hp|hp|hp|hp|hp|hp|hp|hp|hp|hp|hp|hp|hp|hp|hp|hp|hp|hp|hp|hp|hp|hp|hp|hp|hp|hp|hp|hp
    · subst hp; decide
    · subst hp; decide
    · subst hp; exact refToPref_not_buildTag _ _ _ (by decide) (by decide)
    · have he := eq_of_mem_ite_singleton hp
      subst he; exact refToPref_not_buildTag _ _ _ (by decide) (by decide)
    · have he := eq_of_mem_ite_singleton hp
      subst he; exact refToPref_not_buildTag _ _ _ (by decide) (by decide)
    · have he := eq_of_mem_ite_singleton hp
      subst he; exact refToPref_not_buildTag _ _ _ (by decide) (by decide)
    · have he := eq_of_mem_ite_singleton hp
      subst he; exact refToPref_not_buildTag _ _ _ (by decide) (by decide)
    · subst hp; exact refToPref_not_buildTag _ _ _ (by decide) (by decide)
    · have he := eq_of_mem_ite_singleton hp
      subst he; exact refToPref_not_buildTag _ _ _ (by decide) (by decide)
    · subst hp; exact refToPref_not_buildTag _ _ _ (by decide) (by decide)
    · have he := eq_of_mem_ite_singleton hp
      subst he; exact refToPref_not_buildTagNat _ _ _ (by decide) (by decide)
    · have he := eq_of_mem_ite_singleton hp
      subst he; exact refToPref_not_buildTagNat _ _ _ (by decide) (by decide)
    · have he := eq_of_mem_ite_singleton hp
      subst he; exact refToPref_not_buildTagNat _ _ _ (by decide) (by decide)
    · have he := eq_of_mem_ite_singleton hp
      subst he; exact refToPref_not_buildTagNat _ _ _ (by decide) (by decide)
    · exact (not_mem_ite_nil (hneg refT) hp).elim
    · have he := eq_of_mem_ite_singleton hp
      subst he; exact refToPref_not_buildTag _ _ _ (by decide) (by decide)
    · have he := eq_of_mem_ite_singleton hp
      subst he; exact refToPref_not_buildTag _ _ _ (by decide) (by decide)
    · have he := eq_of_mem_ite_singleton hp
      subst he; exact refToPref_not_buildTagNat _ _ _ (by decide) (by decide)
    · have he := eq_of_mem_ite_singleton hp
      subst he; exact refToPref_not_buildTag _ _ _ (by decide) (by decide)
    · have he := eq_of_mem_ite_singleton hp
      subst he; exact refToPref_not_buildTag _ _ _ (by decide) (by decide)
    · have he := eq_of_mem_ite_singleton hp
      subst he; exact refToPref_not_buildTagNat _ _ _ (by decide) (by decide)
    · subst hp; exact refToPref_not_buildTag _ _ _ (by decide) (by decide)
    · subst hp; exact refToPref_not_buildTag _ _ _ (by decide) (by decide)
    · have he := eq_of_mem_ite_singleton hp
      subst he; exact refToPref_not_buildTag _ _ _ (by decide) (by decide)
    · exact (not_mem_ite_nil (by decide) hp).elim
    · have he := eq_of_mem_ite_singleton hp
      subst he; exact refToPref_not_buildTagNat _ _ _ (by decide) (by decide)
    · have he := eq_of_mem_ite_singleton hp
      subst he; exact refToPref_not_buildTag _ _ _ (by decide) (by decide)
    · subst hp; decide

/-- C1 witness: a concrete Formula field with a stray `referenceTo` compiles
identically with and without the stray attribute, with no `referenceTo` line. -/
theorem generateXml_formula_no_referenceTo_witness :
    generateXml { emptyField with type := "Formula", referenceTo := some "Account" } =
      generateXml { { emptyField with type := "Formula", referenceTo := some "Account" } with
        referenceTo := none } ∧
      ∀ p ∈ generateXmlParts { emptyField with type := "Formula", referenceTo := some "Account" },
        ¬ refToPref <+: p.data :=
  generateXml_formula_no_referenceTo
    { emptyField with type := "Formula", referenceTo := some "Account" } rfl

/-- The lines of the emitted document: the non-empty parts in order (the
document is exactly these lines joined with newlines). -/
def xmlLines (f : FieldSpec) : List String :=
  (generateXmlParts f).filter (fun p => p != "")

theorem generateXml_eq_xmlLines (f : FieldSpec) :
    generateXml f = String.intercalate "\n" (xmlLines f) := rfl

set_option maxRecDepth 4096 in
/-- C2: the Picklist round-trip — a Picklist field with values A (default) and
B and `restricted` unset compiles to exactly the document whose `valueSet`
block holds the two `value` elements in order with `restricted` emitted as
`true`; and in every value element the label falls back to the `fullName`
when the label is unset. -/
theorem generateXml_picklist_roundtrip :
    generateXml { emptyField with
        apiName := some "Status__c", label := some "Status", type := "Picklist",
        picklistValues := some
          [⟨"A", some "Option A", true⟩, ⟨"B", some "Option B", false⟩] } =
      "<?xml version=\"1.0\" encoding=\"UTF-8\"?>\n<CustomField xmlns=\"http://soap.sforce.com/2006/04/metadata\">\n    <fullName>Status__c</fullName>\n    <label>Status</label>\n    <required>false</required>\n    <trackHistory>false</trackHistory>\n    <type>Picklist</type>\n    <valueSet>\n        <restricted>true</restricted>\n        <valueSetDefinition>\n            <sorted>false</sorted>\n            <value>\n                <fullName>A</fullName>\n                <default>true</default>\n                <label>Option A</label>\n            </value>\n            <value>\n                <fullName>B</fullName>\n                <default>false</default>\n                <label>Option B</label>\n            </value>\n        </valueSetDefinition>\n    </valueSet>\n</CustomField>" ∧
    ∀ pv : PicklistValue, pv.label = none →
      pvParts pv =
        ["            <value>",
         buildTag "fullName" (some pv.fullName) "                ",
         buildTag "default" (some (boolStr pv.default)) "                ",
         buildTag "label" (some pv.fullName) "                ",
         "            </value>"] := by
  constructor
  · decide
  · intro pv h
    simp [pvParts, jsOr, h]

/-- C2 witness: a value with no label emits its `fullName` as the label. -/
theorem generateXml_picklist_roundtrip_witness :
    pvParts ⟨"NoLab", none, false⟩ =
      ["            <value>",
       buildTag "fullName" (some "NoLab") "                ",
       buildTag "default" (some (boolStr false)) "                ",
       buildTag "label" (some "NoLab") "                ",
       "            </value>"] :=
  generateXml_picklist_roundtrip.2 ⟨"NoLab", none, false⟩ rfl

/-- The complete empty `valueSet` skeleton for a given `restricted` setting. -/
def emptyValueSetBlock (restr : Option Bool) : List String :=
  ["    <valueSet>",
   buildTag "restricted" (some (if restr = some false then "false" else "true")) "        ",
   "        <valueSetDefinition>",
   "            <sorted>false</sorted>",
   "        </valueSetDefinition>",
   "    </valueSet>"]

theorem infix_filter_of_split {A S T B : List String}
    (hsplit : A = S ++ B ++ T) (hB : B.filter (fun p => p != "") = B) :
    B <:+: A.filter (fun p => p != "") := by
  subst hsplit
  refine ⟨S.filter (fun p => p != ""), T.filter (fun p => p != ""), ?_⟩
  simp [List.filter_append, hB]

/-- C10: a Picklist or MultiselectPicklist field whose `picklistValues` is
absent or empty still gets the complete `valueSet` skeleton — `valueSet`,
`restricted` (`true` unless explicitly false), `valueSetDefinition` and
`sorted=false` — with zero `value` elements, as consecutive lines of the
emitted document. -/
theorem generateXml_empty_picklist_skeleton (f : FieldSpec)
    (ht : f.type = "Picklist" ∨ f.type = "MultiselectPicklist")
    (hpv : f.picklistValues = none ∨ f.picklistValues = some []) :
    emptyValueSetBlock f.restricted <:+: xmlLines f := by
  have hvs : valueSetParts f = emptyValueSetBlock f.restricted := by
    unfold valueSetParts emptyValueSetBlock
    rw [if_pos ht]
    have hguard : ¬ (pvTruthy f.picklistValues = true) := by
      rcases hpv with h | h <;> rw [h] <;> decide
    rw [if_neg hguard]
    simp
  have hsplit : generateXmlParts f =
      preValueSetParts f ++ emptyValueSetBlock f.restricted ++ postValueSetParts f := by
    rw [← hvs]; rfl
  have hB : (emptyValueSetBlock f.restricted).filter (fun p => p != "") =
      emptyValueSetBlock f.restricted := by
    unfold emptyValueSetBlock
    by_cases hr : f.restricted = some false
    · rw [if_pos hr]; decide
    · rw [if_neg hr]; decide
  exact infix_filter_of_split hsplit hB

/-- C10 witness: a Picklist field with no `picklistValues` at all still emits
the full empty `valueSet` skeleton. -/
theorem generateXml_empty_picklist_skeleton_witness :
    emptyValueSetBlock (none : Option Bool) <:+:
      xmlLines { emptyField with apiName := some "E__c", label := some "E", type := "Picklist" } :=
  generateXml_empty_picklist_skeleton
    { emptyField with apiName := some "E__c", label := some "E", type := "Picklist" }
    (Or.inl rfl) (Or.inl rfl)

/-! ### Generation response post-processing (`generateFieldsFromAI`) -/

/-- Remove every occurrence of ```` ```json ```` with an optional following
newline (the global replace scans left to right).  Structural on a fuel
argument so the kernel can evaluate it; each step consumes at least one
character, so fuel = length always suffices. -/
def stripJsonFenceF : Nat → List Char → List Char
  | 0, l => l
  | _ + 1, [] => []
  | fuel + 1, c :: rest =>
    if isPref "```json".data (c :: rest) then
      match (c :: rest).drop 7 with
      | '\n' :: r2 => stripJsonFenceF fuel r2
      | r => stripJsonFenceF fuel r
    else c :: stripJsonFenceF fuel rest

/-- Remove every occurrence of ```` ``` ```` with an optional following
newline. -/
def stripTicksF : Nat → List Char → List Char
  | 0, l => l
  | _ + 1, [] => []
  | fuel + 1, c :: rest =>
    if isPref "```".data (c :: rest) then
      match (c :: rest).drop 3 with
      | '\n' :: r2 => stripTicksF fuel r2
      | r => stripTicksF fuel r
    else c :: stripTicksF fuel rest

/-- The completion text after `.trim()`, `normalizeCharacters`, both fence
replaces, and the final `.trim()` — the text whose braces are then located. -/
def strippedResponse (raw : String) : String :=
  let t1 := normalizeCharacters (jsTrimS raw)
  let t2 := stripJsonFenceF t1.data.length t1.data
  let t3 := stripTicksF t2.length t2
  jsTrimS ⟨t3⟩

/-- `indexOf` scan with a running index. -/
def idxOfGo (c : Char) : Int → List Char → Int
  | _, [] => -1
  | i, d :: rest => if d = c then i else idxOfGo c (i + 1) rest

/-- `String.prototype.indexOf` for one character: −1 when absent. -/
def idxOf (c : Char) (l : List Char) : Int := idxOfGo c 0 l

/-- `String.prototype.lastIndexOf` for one character: −1 when absent. -/
def lastIdxOf (c : Char) (l : List Char) : Int :=
  let r := idxOf c l.reverse
  if r = -1 then -1 else (l.length : Int) - 1 - r

/-- The message of the source's missing-brace error (`MalformedResponse`). -/
def malformedResponseMsg : String := "AI response did not contain valid JSON structure"

/-- The message of the source's JSON failure error (`InvalidJson`; the inner
`try` of the source also converts a failed `fields`-array check into this
same error). -/
def invalidJsonMsg : String :=
  "AI returned invalid JSON. Please try again with clearer specifications."

/-- Post-processing of the completion text (`generateFieldsFromAI` after the
service call), parameterized by the JSON parser and the structure check so
that statements about the pre-parse branches hold for every parser: trim,
normalize, strip code fences, re-trim, then locate the first opening and last
closing brace — failing with the malformed-response error when either is
absent — slice between them (JS `substring` swaps crossed indices), then
parse and validate. -/
def handleResponse {J : Type} (parse : String → Option J) (hasFieldsArr : J → Bool)
    (raw : String) : Except String J :=
  let stripped := strippedResponse raw
  let firstBrace := idxOf lbrace stripped.data
  let lastBrace := lastIdxOf rbrace stripped.data
  if firstBrace = -1 ∨ lastBrace = -1 then .error malformedResponseMsg
  else
    let lo := min firstBrace.toNat (lastBrace.toNat + 1)
    let hi := max firstBrace.toNat (lastBrace.toNat + 1)
    let sliced : String := ⟨(stripped.data.drop lo).take (hi - lo)⟩
    match parse sliced with
    | some v => if hasFieldsArr v then .ok v else .error invalidJsonMsg
    | none => .error invalidJsonMsg

theorem idxOfGo_eq_neg_of_not_mem (c : Char) {l : List Char} (h : c ∉ l) :
    ∀ i, idxOfGo c i l = -1 := by
  induction l with
  | nil => intro i; rfl
  | cons d rest ih =>
    intro i
    have hd : d ≠ c := fun hh => h (by simp [hh])
    have hrest : c ∉ rest := fun hh => h (List.mem_cons_of_mem d hh)
    unfold idxOfGo
    rw [if_neg hd]
    exact ih hrest (i + 1)

/-- C8: whenever the completion text after code-fence stripping contains no
opening or no closing brace, the handler fails with the malformed-response
error — for every JSON parser, so no parse is ever attempted on that path. -/
theorem handleResponse_malformed {J : Type} (parse : String → Option J)
    (hasFieldsArr : J → Bool) (raw : String)
    (h : lbrace ∉ (strippedResponse raw).data ∨ rbrace ∉ (strippedResponse raw).data) :
    handleResponse parse hasFieldsArr raw = .error malformedResponseMsg := by
  unfold handleResponse
  have hcond : idxOf lbrace (strippedResponse raw).data = -1 ∨
      lastIdxOf rbrace (strippedResponse raw).data = -1 := by
    rcases h with h | h
    · exact Or.inl (idxOfGo_eq_neg_of_not_mem lbrace h 0)
    · right
      unfold lastIdxOf idxOf
      rw [idxOfGo_eq_neg_of_not_mem rbrace (fun hh => h (List.mem_reverse.mp hh)) 0]
      rfl
  rw [if_pos hcond]

/-- C8 witness: a response with no brace at all fails with the
malformed-response error, with the parser never consulted. -/
theorem handleResponse_malformed_witness :
    handleResponse (fun _ => (none : Option Unit)) (fun _ => false) "no json here" =
      .error malformedResponseMsg :=
  handleResponse_malformed (fun _ => (none : Option Unit)) (fun _ => false)
    "no json here" (Or.inl (by decide))

/-! ### JSON import (`handleImportJSON`) -/

/-- A parsed JSON value (numbers as integers suffice for these claims). -/
inductive JVal where
  | jnull
  | jbool (b : Bool)
  | jnum (n : Int)
  | jstr (s : String)
  | jarr (xs : List JVal)
  | jobj (kvs : List (String × JVal))

/-- Object lookup where a later duplicate key wins, as in a JS object. -/
def lookupLast : List (String × JVal) → String → Option JVal
  | [], _ => none
  | (k', v) :: rest, k =>
    match lookupLast rest k with
    | some r => some r
    | none => if k' = k then some v else none

/-- Property access `data.k`; `none` is JS `undefined` (property access on a
non-object yields `undefined`, and on `null` throws — an exception the
source catches without touching any state, so it lands in the same rejected
branch here). -/
def jGet : JVal → String → Option JVal
  | .jobj kvs, k => lookupLast kvs k
  | _, _ => none

/-- JS truthiness of a value. -/
def jvTruthy : JVal → Bool
  | .jnull => false
  | .jbool b => b
  | .jnum n => n != 0
  | .jstr s => !s.isEmpty
  | .jarr _ => true
  | .jobj _ => true

/-- `!data.fields || !Array.isArray(data.fields)` rejects; the accepted shape
is exactly a present array value (an empty array is truthy in JS, and every
non-array value — truthy or not — fails `Array.isArray`). -/
def fieldsArray (data : JVal) : Option (List JVal) :=
  match jGet data "fields" with
  | some (.jarr xs) => some xs
  | _ => none

/-- `field.x || false` for the coerced boolean flags (a truthy value is kept
as-is, anything falsy becomes `false`). -/
def jsOrFalse (o : Option JVal) : JVal :=
  match o with
  | some v => if jvTruthy v then v else .jbool false
  | none => .jbool false

/-- One imported field: the spread of the original object (a primitive spreads
to no properties; the character-index spread of a string value is not
modelled) with `id` and the four coerced flags appended — appended entries win
on lookup, like the later keys of the JS object literal. -/
def mkImported (now : String) (idx : Nat) (field : JVal) : JVal :=
  .jobj ((match field with | .jobj kvs => kvs | _ => []) ++
    [("id", .jstr (now ++ toString idx)),
     ("required", jsOrFalse (jGet field "required")),
     ("trackHistory", jsOrFalse (jGet field "trackHistory")),
     ("externalId", jsOrFalse (jGet field "externalId")),
     ("unique", jsOrFalse (jGet field "unique"))])

/-- `.map((field, index) => ...)` with the running index made explicit. -/
def mapWithIndex (f : Nat → JVal → JVal) : Nat → List JVal → List JVal
  | _, [] => []
  | i, x :: xs => f i x :: mapWithIndex f (i + 1) xs

/-- The component state touched by the import handler. -/
structure AppState where
  fields : List JVal
  selectedId : Option String
  showImportModal : Bool
  activeTab : String

/-- `handleImportJSON` (App component, source shown in the repository README):
reject unless `fields` is a present array — leaving the whole state, in
particular the previous fields list, untouched (the `alert` and the
`JSON.parse` failure path change no state either) — otherwise replace the
in-memory fields with the mapped imports, select the first one when present,
close the modal and switch to the editor tab.  `now` abstracts
`Date.now().toString()`; `data` is the already-parsed JSON value. -/
def handleImportJSON (now : String) (data : JVal) (st : AppState) : AppState :=
  match fieldsArray data with
  | none => st
  | some xs =>
    let imported := mapWithIndex (mkImported now) 0 xs
    { fields := imported,
      selectedId :=
        match imported with
        | [] => st.selectedId
        | h :: _ =>
          match jGet h "id" with
          | some (.jstr s) => some s
          | _ => none,
      showImportModal := false,
      activeTab := "editor" }

/-- C9: the import is all-or-nothing — a value without a `fields` array leaves
the state (in particular the previous fields list) untouched, and a value with
a `fields` array fully replaces the in-memory list with the mapped imports. -/
theorem handleImportJSON_all_or_nothing (now : String) (data : JVal) (st : AppState) :
    (fieldsArray data = none → handleImportJSON now data st = st) ∧
    (∀ xs, fieldsArray data = some xs →
      (handleImportJSON now data st).fields = mapWithIndex (mkImported now) 0 xs) := by
  constructor
  · intro h
    unfold handleImportJSON
    rw [h]
  · intro xs h
    unfold handleImportJSON
    rw [h]

/-- C9 witness: an object without `fields` is rejected with the state intact;
an object carrying a `fields` array replaces the list with the imports. -/
theorem handleImportJSON_all_or_nothing_witness :
    handleImportJSON "17" (.jobj [("objectName", .jstr "X")])
        ⟨[.jstr "old"], none, true, "import"⟩ =
      ⟨[.jstr "old"], none, true, "import"⟩ ∧
    (handleImportJSON "17" (.jobj [("fields", .jarr [.jobj [("apiName", .jstr "A__c")]])])
        ⟨[.jstr "old"], none, true, "import"⟩).fields =
      mapWithIndex (mkImported "17") 0 [.jobj [("apiName", .jstr "A__c")]] :=
  ⟨(handleImportJSON_all_or_nothing "17" (.jobj [("objectName", .jstr "X")])
      ⟨[.jstr "old"], none, true, "import"⟩).1 rfl,
   (handleImportJSON_all_or_nothing "17"
      (.jobj [("fields", .jarr [.jobj [("apiName", .jstr "A__c")]])])
      ⟨[.jstr "old"], none, true, "import"⟩).2 _ rfl⟩
